import Mathlib

/-
  Verification development for the mi-announce-bot repository (src/mi-bot.py).

  The Python source is shallowly embedded below.  Strings are modelled as
  `List Char` (Python strings are sequences of code points); Python exceptions
  are modelled with `Except PyErr`; the clock (`time.time()` / `datetime.now()`)
  is passed explicitly as an integer number of seconds; the network (feed
  download, message send, fuzzy ranking, HTML to Markdown conversion) is passed
  in as explicit function or value parameters, since those are external
  collaborators of the program.
-/

set_option maxRecDepth 4000

/-- Python exception kinds raised by the code paths modelled here. -/
inductive PyErr where
  | valueError
  | typeError
  | indexError
  | nameError
deriving Repr, DecidableEq

/-- A dynamically typed Python value, as far as the bot manipulates them:
either a string or a list of values.  Needed because `topics_of_episode`
feeds both a list of strings and a list of lists into `" ".join`. -/
inductive PyVal where
  | pstr : String → PyVal
  | plist : List PyVal → PyVal

/-- Python `str.find` for a single character, auxiliary: index of the first
occurrence, if any. -/
def pyFindIdx (c : Char) : List Char → Option Nat
  | [] => none
  | x :: xs => if x = c then some 0 else (pyFindIdx c xs).map (· + 1)

/-- Python `str.find(c)`: index of the first occurrence of `c`, or `-1`. -/
def pyFindCh (s : List Char) (c : Char) : Int :=
  match pyFindIdx c s with
  | some n => (n : Int)
  | none => -1

/-- Python slice `s[a:b]` for a nonnegative start `a` and a possibly negative
end `b` (a negative `b` counts from the end of the string, clamped at 0). -/
def pySliceCh (s : List Char) (a : Nat) (b : Int) : List Char :=
  (s.take (if b < 0 then ((s.length : Int) + b).toNat else b.toNat)).drop a

/-- Python slice `l[a:b]` on a list, for nonnegative bounds. -/
def pySliceNat (l : List α) (a b : Nat) : List α :=
  (l.take b).drop a

/-- Python `list.index(v)` on a list of `str`-or-`None` values: index of the
first element equal to `v`, or `none` (Python raises `ValueError` there). -/
def pyListIndex : List (Option String) → Option String → Option Nat
  | [], _ => none
  | x :: xs, v => if x = v then some 0 else (pyListIndex xs v).map (· + 1)

/-- Python `str.replace(pat, repl)`, auxiliary recursion with fuel.  The fuel
starts at the length of the subject string and at least one character of the
subject is consumed per step, so the zero-fuel arm is never reached for the
initial fuel chosen in `pyReplaceCh`. -/
def pyReplaceChAux (pat repl : List Char) : Nat → List Char → List Char
  | _, [] => []
  | 0, l => l
  | fuel + 1, c :: rest =>
    if 0 < pat.length ∧ pat.isPrefixOf (c :: rest) then
      repl ++ pyReplaceChAux pat repl fuel ((c :: rest).drop pat.length)
    else
      c :: pyReplaceChAux pat repl fuel rest

/-- Python `str.replace(pat, repl)`: replace all non-overlapping occurrences,
scanning left to right. -/
def pyReplaceCh (pat repl l : List Char) : List Char :=
  pyReplaceChAux pat repl l.length l

/-- Python `sep.join(strs)` for a list of strings. -/
def joinSep (sep : String) : List String → String
  | [] => ""
  | [s] => s
  | s :: rest => s ++ sep ++ joinSep sep rest

/-- Collect the strings of a list of Python values; `none` as soon as an
element is not a string (that is where Python `str.join` raises). -/
def strsOf : List PyVal → Option (List String)
  | [] => some []
  | .pstr s :: rest => (strsOf rest).map (fun l => s :: l)
  | .plist _ :: _ => none

/-- Python `sep.join(l)` over a list of arbitrary values: joins when every
element is a string and raises `TypeError` otherwise. -/
def pyJoin (sep : String) (l : List PyVal) : Except PyErr String :=
  match strsOf l with
  | some strs => .ok (joinSep sep strs)
  | none => .error .typeError

/-- One parsed feed entry, as the bot reads it off feedparser: `title`,
`link`, publication time (`published_parsed`, as seconds), and the value of
the first content block (`entry.content[0].value`; every episode entry of
this feed carries one content block). -/
structure Episode where
  title : String
  link : String
  published : Int
  content : String
deriving Repr, DecidableEq

/-- The mutable state of a `PodcastFeed` object: the parsed feed (`feed`),
`last_updated`, `max_age`.  `fetchCount` instruments the model: it counts the
network fetches (`_get_feed` calls) performed so far. -/
structure FeedState where
  feed : List Episode
  last_updated : Int
  max_age : Int
  fetchCount : Nat
deriving Repr, DecidableEq

/-- `PodcastFeed._get_feed`: download and parse the feed (result passed in as
`newFeed`), record the fetch time.  The optional on-disk dump write is a side
effect no claim depends on and is not modelled. -/
def get_feed (newFeed : List Episode) (now : Int) (st : FeedState) : FeedState :=
  ⟨newFeed, now, st.max_age, st.fetchCount + 1⟩

/-- `PodcastFeed.refresh`: refetch iff `last_updated + max_age < now`. -/
def refresh (newFeed : List Episode) (now : Int) (st : FeedState) : FeedState :=
  if st.last_updated + st.max_age < now then get_feed newFeed now st else st

/-- `PodcastFeed.latest_episode` property: refresh, then `feed['items'][0]`
(an empty feed would raise `IndexError` in Python). -/
def latest_episode_of (newFeed : List Episode) (now : Int) (st : FeedState) :
    Except PyErr (Episode × FeedState) :=
  match (refresh newFeed now st).feed with
  | [] => .error .indexError
  | e :: _ => .ok (e, refresh newFeed now st)

/-- `PodcastFeed.episode_titles` property: refresh, then the titles. -/
def episode_titles_of (newFeed : List Episode) (now : Int) (st : FeedState) :
    List String × FeedState :=
  ((refresh newFeed now st).feed.map (fun e => e.title), refresh newFeed now st)

/-- `PodcastFeed.check_new_episode`: return the newest episode when
`now - published < max_age`, else `False` (modelled as `none`).  The two
clock reads of the source (`time.time()` in refresh, `dt.now()` in the
comparison) are modelled as the same instant `now`. -/
def check_new_episode (newFeed : List Episode) (now : Int) (st : FeedState)
    (max_age : Int) : Except PyErr (Option Episode × FeedState) :=
  match latest_episode_of newFeed now st with
  | .error e => .error e
  | .ok (ep, st2) => .ok (if now - ep.published < max_age then some ep else none, st2)

/-- Rendering of an exception kind, standing in for Python `repr(exc)` in the
log line of `PodcastFeed.__init__`. -/
def pyErrName : PyErr → String
  | .valueError => "ValueError"
  | .typeError => "TypeError"
  | .indexError => "IndexError"
  | .nameError => "NameError"

/-- Log line of the snapshot-load fallback in `PodcastFeed.__init__`. -/
def failLoadMsg : String := "Failed loding dumped feed. Falling back to download."

/-- `PodcastFeed.__init__`: when a dump path is given and is a file, try to
unpickle `(last_updated, feed)` from it; on success use the pair (no network
fetch), on any failure log and fall back to `_get_feed`.  Without a usable
dump path, fetch directly.  `loadResult` is the outcome of the unpickling,
`fetchedFeed` the feed a network fetch would produce.  Returns the state and
the list of log messages emitted. -/
def initPodcastFeed (dump : String) (dumpIsFile : Bool)
    (loadResult : Except PyErr (Int × List Episode))
    (fetchedFeed : List Episode) (now : Int) (max_age : Int) :
    FeedState × List String :=
  if dump ≠ "" ∧ dumpIsFile then
    match loadResult with
    | .ok (lu, feed) => (⟨feed, lu, max_age, 0⟩, ["Reloaded dumped feed"])
    | .error e =>
      (⟨fetchedFeed, now, max_age, 1⟩,
       [pyErrName e, failLoadMsg, "Done parsing feed"])
  else
    (⟨fetchedFeed, now, max_age, 1⟩, ["Getting feed", "Done parsing feed"])

/-- One pass of `re.sub(f'(?<!\\\\){c}', f'\\{c}', text)`: every occurrence of
`c` not immediately preceded (in the pass's input) by a backslash gets a
backslash inserted in front of it.  `prev` is the character preceding the
current position in the pass's input. -/
def escAux (c : Char) : Option Char → List Char → List Char
  | _, [] => []
  | prev, x :: xs =>
    if x = c ∧ prev ≠ some '\\' then '\\' :: x :: escAux c (some x) xs
    else x :: escAux c (some x) xs

/-- The escaping loop of `tg_broadcast` with its default
`escape_chars=['!', '#', '-']`: three successive `re.sub` passes. -/
def tg_escape (text : String) : String :=
  String.mk (escAux '-' none (escAux '#' none (escAux '!' none text.toList)))

/-- Checks that every occurrence of `c` in the list is immediately preceded by
a backslash (`prev` being the character just before the head). -/
def escOKAux (c : Char) : Option Char → List Char → Bool
  | _, [] => true
  | prev, x :: xs => (x != c || prev == some '\\') && escOKAux c (some x) xs

/-- The send loop of `tg_broadcast`: `bot.send_message` for each chat id in
order, with the already-escaped text.  There is no try/except around the
loop body, so a raised send error aborts the loop.  Returns the
`(chat_id, text)` pairs actually delivered, and the propagated exception if
one was raised. -/
def sendLoop (send : String → String → Except PyErr Unit) (esc : String) :
    List String → List (String × String) × Option PyErr
  | [] => ([], none)
  | chat_id :: rest =>
    match send chat_id esc with
    | .ok _ =>
      ((chat_id, esc) :: (sendLoop send esc rest).1, (sendLoop send esc rest).2)
    | .error e => ([], some e)

/-- `tg_broadcast(text)`: escape the text, then send it to every chat id. -/
def tg_broadcast (send : String → String → Except PyErr Unit)
    (chat_ids : List String) (text : String) :
    List (String × String) × Option PyErr :=
  sendLoop send (tg_escape text) chat_ids

/-- Drop an exact prefix of characters, returning the remainder. -/
def dropPrefixCh : List Char → List Char → Option (List Char)
  | [], s => some s
  | _ :: _, [] => none
  | p :: ps, c :: cs => if c = p then dropPrefixCh ps cs else none

/-- Longest prefix of decimal digits and the remainder (greedy `\d+`).
ASCII digits; the titles handled never contain non-ASCII digits. -/
def takeDigits : List Char → List Char × List Char
  | [] => ([], [])
  | c :: cs =>
    if c.isDigit then
      ((c :: (takeDigits cs).1), (takeDigits cs).2)
    else ([], c :: cs)

/-- Python regex `\w` (ASCII range; the titles handled are ASCII). -/
def isWordChar (c : Char) : Bool := c.isAlphanum || c = '_'

/-- The capture group `(\d+\w?)` of the episode-number pattern: one or more
digits taken greedily, then one optional word character. -/
def numGroup (s : List Char) : Option (List Char) :=
  match takeDigits s with
  | ([], _) => none
  | (ds, []) => some ds
  | (ds, c :: _) => if isWordChar c then some (ds ++ [c]) else some ds

/-- One alternative of the episode-number pattern: the literal prefix, then
the capture group. -/
def tryAlt (pre : String) (s : List Char) : Option (List Char) :=
  match dropPrefixCh pre.toList s with
  | some r => numGroup r
  | none => none

/-- `re.match(r"(?:Minkorrekt(?:\ Folge)?\ |Mi)(\d+\w?)", title)`, returning
the captured group.  The regex engine tries, in order: the first alternative
with the greedy optional `" Folge"`, the first alternative without it, then
the alternative `"Mi"`; the first fully successful one wins. -/
def matchEpNumCh (s : List Char) : Option (List Char) :=
  match tryAlt "Minkorrekt Folge " s with
  | some g => some g
  | none =>
    match tryAlt "Minkorrekt " s with
    | some g => some g
    | none => tryAlt "Mi" s

/-- Episode-number extraction from a title (string wrapper). -/
def matchEpNum (s : String) : Option String :=
  (matchEpNumCh s.toList).map String.mk

/-- The `episode_numbers` list of `topics_of_episode`: extracted number (or
`None`) per entry, aligned with the entry list. -/
def episode_numbers (entries : List Episode) : List (Option String) :=
  entries.map (fun e => matchEpNum e.title)

/-- The content cleaning applied per entry: strip the two WordPress paragraph
markers (in source order: first the closing, then the opening marker). -/
def cleanContent (s : String) : String :=
  String.mk (pyReplaceCh "<!-- wp:paragraph -->".toList []
    (pyReplaceCh "<!-- /wp:paragraph -->".toList [] s.toList))

/-- The `topics_all_episodes` list: per entry the two-element Python list
`[title, cleaned content]`, modelled as a pair. -/
def topics_all_episodes (entries : List Episode) : List (String × String) :=
  entries.map (fun e => (e.title, cleanContent e.content))

/-- The character class `[1, 2, 3, 4]` of the topic-marker regex: as written
it matches a digit 1-4, a comma, or a space. -/
def themaClass (c : Char) : Bool :=
  c == '1' || c == ',' || c == ' ' || c == '2' || c == '3' || c == '4'

/-- Does the topic-marker pattern `"Thema [1, 2, 3, 4]"` match at the head of
the list: the literal `"Thema "` followed by one class character. -/
def markerHere (l : List Char) : Bool :=
  "Thema ".toList.isPrefixOf l &&
    (match l.get? 6 with
     | some c => themaClass c
     | none => false)

/-- `re.finditer` scan for the topic-marker pattern: left to right; after a
match (of length 7) the scan resumes past the match, which the `skip`
counter implements. -/
def findMarkersAux : Nat → Nat → List Char → List Nat
  | _, _, [] => []
  | s + 1, pos, _ :: rest => findMarkersAux s (pos + 1) rest
  | 0, pos, x :: rest =>
    if markerHere (x :: rest) then pos :: findMarkersAux 6 (pos + 1) rest
    else findMarkersAux 0 (pos + 1) rest

/-- `topic_start_points`: the match start positions of the topic-marker
pattern in the joined text. -/
def findMarkers (s : List Char) : List Nat := findMarkersAux 0 0 s

/-- The slice a start position contributes:
`blob[start : start + blob[start:].find('\n')]`. -/
def topicSlice (bl : List Char) (st : Nat) : List Char :=
  pySliceCh bl st ((st : Int) + pyFindCh (bl.drop st) '\n')

/-- Reply texts of the handlers (verbatim from the source). -/
def promptText : String := "Bitte eine Episodennummer beim Aufruf mit angeben."

/-- Reply when the requested episode number is not among the extracted ones. -/
def notFoundText (n : String) : String :=
  "Nicht gefunden.\nEpisode " ++ n ++ "\n            gab es möglicherweise nicht."

/-- Reply when no topic marker is found in the selected episode's text. -/
def noTopicsText : String :=
  "Themen nicht gefunden.\nWahrscheinlich Nobelpreis/Jahresrückblick-Folge"

/-- The synthesized display title for the special-case episode pair. -/
def combined12Title : String :=
  "12a Du wirst wieder angerufen! & 12b Previously (on) Lost"

/-- The final reply of `topics_of_episode`. -/
def themesText (episode_title topics_text : String) : String :=
  "Die Themen von Folge " ++ episode_title ++ " sind:\n" ++ topics_text

/-- The common tail of `topics_of_episode` (source lines 218-237): join the
selected topics value with spaces, find the topic markers and end points,
reply "no topics" when no marker was found, otherwise slice each topic, run
it through `html2markdown.convert` (external library, passed in as
`convert`), join with line breaks and reply with the episode title.  The
title is the fixed combined string for request `"12"`, else
`topics_all_episodes[target_episode_index][0]`. -/
def topicsReplyCore (convert : String → String) (requested_episode_number : String)
    (topics_all : List (String × String)) (target_episode_index : Nat)
    (requested_episode_topics : List PyVal) : Except PyErr String :=
  match pyJoin " " requested_episode_topics with
  | .error e => .error e
  | .ok joined =>
    if (findMarkers joined.toList).length = 0 then .ok noTopicsText
    else
      match (if requested_episode_number = "12" then some combined12Title
             else (topics_all.get? target_episode_index).map (fun pr => pr.1)) with
      | none => .error .indexError
      | some episode_title =>
        .ok (themesText episode_title (joinSep "\n"
          (((findMarkers joined.toList).zip ((findMarkers joined.toList).map
              (fun (st : Nat) => (st : Int) + pyFindCh (joined.toList.drop st) '\n'))).map
            (fun se => convert (String.mk (pySliceCh joined.toList se.1 se.2))))))

/-- `topics_of_episode` from the first branch on the argument onward (source
lines 203-237).  For request `"12"`: look up the index of `"12a"` (an absent
`"12a"` raises `ValueError`, uncaught), slice
`topics_all_episodes[i : i + 1]` and reverse it — the slice elements are
Python lists.  Otherwise: look up the requested number, an absent number is
caught and answered with the not-found reply. -/
def topics_with_arg (convert : String → String) (entries : List Episode)
    (requested_episode_number : String) : Except PyErr String :=
  if requested_episode_number = "12" then
    match pyListIndex (episode_numbers entries) (some "12a") with
    | none => .error .valueError
    | some target_episode_index =>
      topicsReplyCore convert requested_episode_number (topics_all_episodes entries)
        target_episode_index
        (((pySliceNat (topics_all_episodes entries) target_episode_index
            (target_episode_index + 1)).reverse).map
          (fun pr => .plist [.pstr pr.1, .pstr pr.2]))
  else
    match pyListIndex (episode_numbers entries) (some requested_episode_number) with
    | none => .ok (notFoundText requested_episode_number)
    | some target_episode_index =>
      match (topics_all_episodes entries).get? target_episode_index with
      | none => .error .indexError
      | some pr =>
        topicsReplyCore convert requested_episode_number (topics_all_episodes entries)
          target_episode_index [.pstr pr.1, .pstr pr.2]

/-- The `topics_of_episode` handler: the argument is everything after the
first space of the message text; without one, reply with the prompt.
(The source additionally drops into an interactive debugger breakpoint for
the argument `"101"` — `pdb.set_trace()` — which pauses and resumes with no
effect on the computed reply; it is not modelled.) -/
def topics_of_episode (convert : String → String) (entries : List Episode)
    (msgText : String) : Except PyErr String :=
  if pyFindCh msgText.toList ' ' > 0 then
    topics_with_arg convert entries
      (String.mk (msgText.toList.drop ((pyFindCh msgText.toList ' ').toNat + 1)))
  else .ok promptText

/-- The `fuzzy_topic_search` handler.  `extract` is
`fuzzywuzzy.process.extract` (external library): it ranks the
`(title, cleaned content)` pairs against the query, best first.  When the
message has no space, `search_term` is never assigned, so its use in the
`process.extract` call raises an uncaught `UnboundLocalError` (a
`NameError`). -/
def fuzzy_topic_search
    (extract : String → List (String × String) → List ((String × String) × Nat))
    (entries : List Episode) (msgText : String) : Except PyErr String :=
  if pyFindCh msgText.toList ' ' > 0 then
    .ok ("Die besten 3 Treffer sind die Episoden:\n" ++ joinSep "\n"
      (((extract (String.mk (msgText.toList.drop ((pyFindCh msgText.toList ' ').toNat + 1)))
          (topics_all_episodes entries)).take 3).map (fun r => r.1.1)))
  else .error .nameError

/-! ## Feed cache: refresh boundary, announcement check, construction -/

/-- C4 counterexample: at `now - fetchedAt = maxAgeSeconds` exactly (here
`now = 3600`, `fetchedAt = 0`, `maxAge = 3600`), the claim requires a
refetch, but `refresh` leaves the state — feed, `last_updated` and fetch
count — unchanged, because its condition `last_updated + max_age < now` is
strict. -/
theorem C4_counterexample :
    ¬ ((3600 : Int) - 0 < 3600) ∧
    refresh [] 3600 ⟨[], 0, 3600, 1⟩ = ⟨[], 0, 3600, 1⟩ ∧
    (refresh [] 3600 ⟨[], 0, 3600, 1⟩).fetchCount = 1 := by
  refine ⟨by decide, by decide, by decide⟩

/-- C4 (amended): an access serves the cache without fetching when
`now - fetchedAt ≤ maxAgeSeconds` (boundary included) and performs exactly
one refetch — replacing feed and `last_updated` and incrementing the fetch
count — when `now - fetchedAt > maxAgeSeconds`; two accesses within the
closed window add no fetch; an access strictly past the window adds exactly
one; and the data served is never older than `maxAgeSeconds`. -/
theorem C4_amended_thm :
    (∀ (nf : List Episode) (now : Int) (st : FeedState),
        now - st.last_updated ≤ st.max_age → refresh nf now st = st) ∧
    (∀ (nf : List Episode) (now : Int) (st : FeedState),
        st.max_age < now - st.last_updated →
          refresh nf now st = ⟨nf, now, st.max_age, st.fetchCount + 1⟩) ∧
    (∀ (nf : List Episode) (now : Int) (st : FeedState),
        0 ≤ st.max_age → st.last_updated ≤ now →
          now - (refresh nf now st).last_updated ≤ st.max_age) ∧
    (∀ (nf1 nf2 : List Episode) (now1 now2 : Int) (st : FeedState),
        now1 - st.last_updated ≤ st.max_age → now2 - st.last_updated ≤ st.max_age →
          (refresh nf2 now2 (refresh nf1 now1 st)).fetchCount = st.fetchCount) ∧
    (∀ (nf : List Episode) (now : Int) (st : FeedState),
        st.max_age < now - st.last_updated →
          (refresh nf now st).fetchCount = st.fetchCount + 1) := by
  have hskip : ∀ (nf : List Episode) (now : Int) (st : FeedState),
      now - st.last_updated ≤ st.max_age → refresh nf now st = st := by
    intro nf now st h
    unfold refresh
    rw [if_neg (by omega)]
  have hfetch : ∀ (nf : List Episode) (now : Int) (st : FeedState),
      st.max_age < now - st.last_updated →
        refresh nf now st = ⟨nf, now, st.max_age, st.fetchCount + 1⟩ := by
    intro nf now st h
    unfold refresh get_feed
    rw [if_pos (by omega)]
  refine ⟨hskip, hfetch, ?_, ?_, ?_⟩
  · intro nf now st hma hmono
    unfold refresh get_feed
    by_cases h : st.last_updated + st.max_age < now
    · rw [if_pos h]; simp; omega
    · rw [if_neg h]; omega
  · intro nf1 nf2 now1 now2 st h1 h2
    rw [hskip nf1 now1 st h1, hskip nf2 now2 st h2]
  · intro nf now st h
    rw [hfetch nf now st h]

/-- C4 amended witness: within the window (`now = 100`) the state is served
unchanged; strictly past the window (`now = 4000`) exactly one more fetch
happens. -/
theorem C4_amended_witness :
    refresh [] 100 ⟨[], 0, 3600, 1⟩ = ⟨[], 0, 3600, 1⟩ ∧
    (refresh [] 4000 ⟨[], 0, 3600, 1⟩).fetchCount = 1 + 1 :=
  ⟨C4_amended_thm.1 [] 100 ⟨[], 0, 3600, 1⟩ (by decide),
   C4_amended_thm.2.2.2.2 [] 4000 ⟨[], 0, 3600, 1⟩ (by decide)⟩

/-- C5: `check_new_episode` returns the newest episode exactly when
`now - publishedAt` is strictly below the threshold, and the
no-announcement value (`False`, here `none`) at the threshold and beyond;
an item published ≥ threshold seconds before the check is never announced. -/
theorem C5_boundary_thm (nf : List Episode) (now : Int) (st : FeedState)
    (max_age : Int) (ep : Episode) (rest : List Episode)
    (hfeed : (refresh nf now st).feed = ep :: rest) :
    (now - ep.published < max_age →
      check_new_episode nf now st max_age = .ok (some ep, refresh nf now st)) ∧
    (max_age ≤ now - ep.published →
      check_new_episode nf now st max_age = .ok (none, refresh nf now st)) := by
  unfold check_new_episode latest_episode_of
  rw [hfeed]
  constructor
  · intro h
    simp [if_pos h]
  · intro h
    simp [if_neg (by omega : ¬ now - ep.published < max_age)]

/-- C5 witness: with the newest item published at 0 and threshold 3600, a
check at 3599 announces it, checks at 3600 and 3601 do not. -/
theorem C5_boundary_witness :
    check_new_episode [] 3599 ⟨[⟨"t", "l", 0, "c"⟩], 0, 7200, 1⟩ 3600 =
      .ok (some ⟨"t", "l", 0, "c"⟩, ⟨[⟨"t", "l", 0, "c"⟩], 0, 7200, 1⟩) ∧
    check_new_episode [] 3600 ⟨[⟨"t", "l", 0, "c"⟩], 0, 7200, 1⟩ 3600 =
      .ok (none, ⟨[⟨"t", "l", 0, "c"⟩], 0, 7200, 1⟩) ∧
    check_new_episode [] 3601 ⟨[⟨"t", "l", 0, "c"⟩], 0, 7200, 1⟩ 3600 =
      .ok (none, ⟨[⟨"t", "l", 0, "c"⟩], 0, 7200, 1⟩) :=
  ⟨(C5_boundary_thm [] 3599 ⟨[⟨"t", "l", 0, "c"⟩], 0, 7200, 1⟩ 3600
      ⟨"t", "l", 0, "c"⟩ [] (by decide)).1 (by decide),
   (C5_boundary_thm [] 3600 ⟨[⟨"t", "l", 0, "c"⟩], 0, 7200, 1⟩ 3600
      ⟨"t", "l", 0, "c"⟩ [] (by decide)).2 (by decide),
   (C5_boundary_thm [] 3601 ⟨[⟨"t", "l", 0, "c"⟩], 0, 7200, 1⟩ 3600
      ⟨"t", "l", 0, "c"⟩ [] (by decide)).2 (by decide)⟩

/-- C9: construction with an existing snapshot file loads the stored
`(fetchedAt, Feed)` pair without a network fetch; any deserialization
failure is logged and answered with a synchronous fetch — construction
always returns a state, never propagates the snapshot error; and without a
usable snapshot it fetches directly. -/
theorem C9_init_thm (dump : String) (dumpIsFile : Bool)
    (loadResult : Except PyErr (Int × List Episode)) (fetchedFeed : List Episode)
    (now max_age : Int) :
    (∀ lu feed, dump ≠ "" → dumpIsFile = true → loadResult = .ok (lu, feed) →
       initPodcastFeed dump dumpIsFile loadResult fetchedFeed now max_age =
         (⟨feed, lu, max_age, 0⟩, ["Reloaded dumped feed"])) ∧
    (∀ e, dump ≠ "" → dumpIsFile = true → loadResult = .error e →
       initPodcastFeed dump dumpIsFile loadResult fetchedFeed now max_age =
         (⟨fetchedFeed, now, max_age, 1⟩,
          [pyErrName e, failLoadMsg, "Done parsing feed"]) ∧
       failLoadMsg ∈ (initPodcastFeed dump dumpIsFile loadResult fetchedFeed now max_age).2) ∧
    (dump = "" ∨ dumpIsFile = false →
       initPodcastFeed dump dumpIsFile loadResult fetchedFeed now max_age =
         (⟨fetchedFeed, now, max_age, 1⟩, ["Getting feed", "Done parsing feed"])) := by
  refine ⟨?_, ?_, ?_⟩
  · intro lu feed hd hf hl
    unfold initPodcastFeed
    rw [if_pos ⟨hd, hf⟩, hl]
  · intro e hd hf hl
    unfold initPodcastFeed
    rw [if_pos ⟨hd, hf⟩, hl]
    exact ⟨rfl, by simp⟩
  · intro h
    unfold initPodcastFeed
    rw [if_neg (by rcases h with h | h <;> simp [h])]

/-- C9 witness: a corrupt snapshot (`loadResult` an error) falls back to the
fetch and logs the failure; a valid snapshot is loaded with no fetch. -/
theorem C9_init_witness :
    initPodcastFeed "feed.dump" true (.error .valueError) [] 50 3600 =
      (⟨[], 50, 3600, 1⟩, [pyErrName .valueError, failLoadMsg, "Done parsing feed"]) ∧
    initPodcastFeed "feed.dump" true (.ok (7, [])) [] 50 3600 =
      (⟨[], 7, 3600, 0⟩, ["Reloaded dumped feed"]) :=
  ⟨((C9_init_thm "feed.dump" true (.error .valueError) [] 50 3600).2.1 .valueError
      (by decide) rfl rfl).1,
   (C9_init_thm "feed.dump" true (.ok (7, [])) [] 50 3600).1 7 [] (by decide) rfl rfl⟩

/-! ## Broadcast fan-out -/

/-- The send loop delivers to every destination, in order, when every send
succeeds. -/
theorem sendLoop_ok (send : String → String → Except PyErr Unit) (esc : String) :
    ∀ ids : List String, (∀ cid ∈ ids, send cid esc = .ok ()) →
      sendLoop send esc ids = (ids.map (fun c => (c, esc)), none) := by
  intro ids
  induction ids with
  | nil => intro _; rfl
  | cons cid rest ih =>
    intro h
    have hc : send cid esc = .ok () := h cid (by simp)
    have hr := ih (fun c hc2 => h c (by simp [hc2]))
    simp [sendLoop, hc, hr]

/-- The send loop stops at the first failing destination: the destinations
before it are delivered, the failing one raises, the ones after it are
never sent. -/
theorem sendLoop_fail (send : String → String → Except PyErr Unit) (esc : String)
    (e : PyErr) :
    ∀ (pre : List String) (cid : String) (post : List String),
      (∀ c ∈ pre, send c esc = .ok ()) → send cid esc = .error e →
      sendLoop send esc (pre ++ cid :: post) = (pre.map (fun c => (c, esc)), some e) := by
  intro pre
  induction pre with
  | nil =>
    intro cid post _ hfail
    simp [sendLoop, hfail]
  | cons a rest ih =>
    intro cid post hok hfail
    have ha : send a esc = .ok () := hok a (by simp)
    have hr := ih cid post (fun c hc => hok c (by simp [hc])) hfail
    simp [sendLoop, ha, hr]

/-- Every pair in the broadcast trace carries the escaped text. -/
theorem sendLoop_all_escaped (send : String → String → Except PyErr Unit)
    (esc : String) :
    ∀ ids : List String, ((sendLoop send esc ids).1).all (fun p => p.2 == esc) = true := by
  intro ids
  induction ids with
  | nil => rfl
  | cons cid rest ih =>
    rw [sendLoop]
    match hs : send cid esc with
    | .ok _ => simpa using ih
    | .error e => rfl

/-- The concrete send function of the C3 counterexample: the first
destination fails, any other succeeds. -/
def c3send : String → String → Except PyErr Unit :=
  fun cid _ => if cid = "A" then .error .valueError else .ok ()

/-- C3 counterexample: with destinations `["A", "B"]` and a send that fails
on `"A"` but would succeed on `"B"`, `tg_broadcast` delivers to nobody and
propagates the exception — the failure on the first destination does
prevent the send to the remaining one. -/
theorem C3_counterexample :
    tg_broadcast c3send ["A", "B"] "hi" = ([], some .valueError) ∧
    c3send "B" (tg_escape "hi") = .ok () := by
  exact ⟨rfl, rfl⟩

/-- C3 (amended): `tg_broadcast` sends the same escaped text to every
configured destination, in order, when every send succeeds; on the first
send failure the exception propagates out of the loop and the remaining
destinations are not sent — per-destination errors are not isolated. -/
theorem C3_amended_thm :
    (∀ (send : String → String → Except PyErr Unit) (chat_ids : List String)
        (text : String),
        (∀ cid ∈ chat_ids, send cid (tg_escape text) = .ok ()) →
          tg_broadcast send chat_ids text =
            (chat_ids.map (fun c => (c, tg_escape text)), none)) ∧
    (∀ (send : String → String → Except PyErr Unit) (text : String)
        (pre : List String) (cid : String) (post : List String) (e : PyErr),
        (∀ c ∈ pre, send c (tg_escape text) = .ok ()) →
          send cid (tg_escape text) = .error e →
          tg_broadcast send (pre ++ cid :: post) text =
            (pre.map (fun c => (c, tg_escape text)), some e)) := by
  constructor
  · intro send chat_ids text h
    exact sendLoop_ok send (tg_escape text) chat_ids h
  · intro send text pre cid post e hok hfail
    exact sendLoop_fail send (tg_escape text) e pre cid post hok hfail

/-- C3 amended witness: all-success delivers to both destinations; a failure
on the first destination delivers to none. -/
theorem C3_amended_witness :
    tg_broadcast (fun _ _ => (.ok () : Except PyErr Unit)) ["A", "B"] "x" =
      ([("A", tg_escape "x"), ("B", tg_escape "x")], none) ∧
    tg_broadcast c3send ["A", "B"] "hi" = ([], some .valueError) :=
  ⟨C3_amended_thm.1 (fun _ _ => .ok ()) ["A", "B"] "x" (fun _ _ => rfl),
   C3_amended_thm.2 c3send "hi" [] "A" ["B"] .valueError
     (fun c hc => absurd hc (List.not_mem_nil c)) rfl⟩

/-! ## Markup escaping -/

/-- After one escaping pass for `c`, every occurrence of `c` is immediately
preceded by a backslash. -/
theorem escOKAux_escAux (c : Char) (hc : c ≠ '\\') :
    ∀ (t : List Char) (prev : Option Char),
      escOKAux c prev (escAux c prev t) = true := by
  intro t
  induction t with
  | nil => intro prev; rfl
  | cons x xs ih =>
    intro prev
    by_cases h : x = c ∧ prev ≠ some '\\'
    · simp only [escAux, if_pos h, escOKAux, Bool.and_eq_true, Bool.or_eq_true]
      refine ⟨Or.inl ?_, Or.inr ?_, ih (some x)⟩
      · simp only [bne_iff_ne]
        exact Ne.symm hc
      · simp
    · simp only [escAux, if_neg h, escOKAux, Bool.and_eq_true, Bool.or_eq_true]
      refine ⟨?_, ih (some x)⟩
      rw [not_and_or, not_not] at h
      rcases h with h | h
      · exact Or.inl (by simpa [bne_iff_ne] using h)
      · exact Or.inr (by simp [h])

/-- An escaping pass for a different character `d` preserves the
already-escaped invariant for `c`. -/
theorem escOKAux_escAux_other (c d : Char) (hcd : c ≠ d) (hc : c ≠ '\\') :
    ∀ (t : List Char) (prev : Option Char),
      escOKAux c prev t = true → escOKAux c prev (escAux d prev t) = true := by
  intro t
  induction t with
  | nil => intro prev _; rfl
  | cons x xs ih =>
    intro prev h
    rw [escOKAux, Bool.and_eq_true] at h
    obtain ⟨hhead, htail⟩ := h
    by_cases hd : x = d ∧ prev ≠ some '\\'
    · simp only [escAux, if_pos hd, escOKAux, Bool.and_eq_true, Bool.or_eq_true]
      refine ⟨Or.inl ?_, Or.inl ?_, ih (some x) htail⟩
      · simp only [bne_iff_ne]
        exact Ne.symm hc
      · simp only [bne_iff_ne, hd.1]
        exact Ne.symm hcd
    · simp only [escAux, if_neg hd, escOKAux, Bool.and_eq_true]
      exact ⟨hhead, ih (some x) htail⟩

/-- An escaping pass for `c` is the identity on text whose occurrences of
`c` are all already escaped. -/
theorem escAux_noop (c : Char) :
    ∀ (t : List Char) (prev : Option Char),
      escOKAux c prev t = true → escAux c prev t = t := by
  intro t
  induction t with
  | nil => intro prev _; rfl
  | cons x xs ih =>
    intro prev h
    rw [escOKAux, Bool.and_eq_true] at h
    obtain ⟨hhead, htail⟩ := h
    have hcond : ¬ (x = c ∧ prev ≠ some '\\') := by
      rw [Bool.or_eq_true] at hhead
      rcases hhead with h1 | h1
      · intro hx
        have hne : x ≠ c := by simpa [bne_iff_ne] using h1
        exact hne hx.1
      · intro hx
        have hpb : prev = some '\\' := by simpa using h1
        exact hx.2 hpb
    simp only [escAux, if_neg hcond]
    rw [ih (some x) htail]

/-- In the output of `tg_escape`, every `!`, `#` and `-` is immediately
preceded by a backslash. -/
theorem tg_escape_all_escaped (t : String) :
    escOKAux '!' none (tg_escape t).toList = true ∧
    escOKAux '#' none (tg_escape t).toList = true ∧
    escOKAux '-' none (tg_escape t).toList = true := by
  have hlist : (tg_escape t).toList =
      escAux '-' none (escAux '#' none (escAux '!' none t.toList)) := rfl
  rw [hlist]
  refine ⟨?_, ?_, ?_⟩
  · exact escOKAux_escAux_other '!' '-' (by decide) (by decide) _ none
      (escOKAux_escAux_other '!' '#' (by decide) (by decide) _ none
        (escOKAux_escAux '!' (by decide) t.toList none))
  · exact escOKAux_escAux_other '#' '-' (by decide) (by decide) _ none
      (escOKAux_escAux '#' (by decide) _ none)
  · exact escOKAux_escAux '-' (by decide) _ none

/-- `tg_escape` is idempotent: escaping already-escaped text changes
nothing. -/
theorem tg_escape_idem (t : String) : tg_escape (tg_escape t) = tg_escape t := by
  obtain ⟨h1, h2, h3⟩ := tg_escape_all_escaped t
  show String.mk (escAux '-' none (escAux '#' none
    (escAux '!' none (tg_escape t).toList))) = tg_escape t
  rw [escAux_noop '!' _ none h1, escAux_noop '#' _ none h2, escAux_noop '-' _ none h3]
  rfl

/-- C7: under the escaped markup mode of `tg_broadcast`, the characters `!`,
`#`, `-` of the outbound text come out backslash-prefixed exactly once (the
concrete input of the claim evaluates to exactly that), an already-escaped
occurrence such as `\!` is left unchanged rather than double-escaped, every
occurrence of the three characters in escaped output is backslash-prefixed,
re-escaping escaped text is a no-op, and every message a broadcast actually
delivers is the escaped text. -/
theorem C7_escape_thm :
    tg_escape "Episode #42 - now!" = "Episode \\#42 \\- now\\!" ∧
    tg_escape "a\\!b" = "a\\!b" ∧
    (∀ t : String,
      escOKAux '!' none (tg_escape t).toList = true ∧
      escOKAux '#' none (tg_escape t).toList = true ∧
      escOKAux '-' none (tg_escape t).toList = true) ∧
    (∀ t : String, tg_escape (tg_escape t) = tg_escape t) ∧
    (∀ (send : String → String → Except PyErr Unit) (chat_ids : List String)
        (text : String),
      ((tg_broadcast send chat_ids text).1).all
        (fun p => p.2 == tg_escape text) = true) := by
  refine ⟨rfl, rfl, tg_escape_all_escaped, tg_escape_idem, ?_⟩
  intro send chat_ids text
  exact sendLoop_all_escaped send (tg_escape text) chat_ids

/-! ## Episode-number extraction, lookup guard, handler error policy -/

/-- C8: episode-number extraction maps each title through the anchored
pattern, yielding a list aligned index-by-index with the entry list; the
three title shapes of the claim extract `"42"`, `"42b"`, `"42"`, and a
non-matching title extracts `none`. -/
theorem C8_extraction_thm :
    (∀ (entries : List Episode) (i : Nat),
        (episode_numbers entries).length = entries.length ∧
        (episode_numbers entries)[i]? =
          (entries[i]?).map (fun e => matchEpNum e.title)) ∧
    matchEpNum "Minkorrekt 42 Foo" = some "42" ∧
    matchEpNum "Minkorrekt Folge 42b Foo" = some "42b" ∧
    matchEpNum "Mi42 Foo" = some "42" ∧
    matchEpNum "Hallo Welt 2023" = none := by
  refine ⟨?_, by decide, by decide, by decide, by decide⟩
  intro entries i
  exact ⟨List.length_map _ _, List.getElem?_map _ _ _⟩

/-- C10: when the request is `"12"` and no title extracts to `"12a"`, the
`list.index` lookup raises `ValueError` outside any try/except, so the
handler propagates an exception instead of replying "not found". -/
theorem C10_uncaught_thm (convert : String → String) (entries : List Episode)
    (msgText : String)
    (hi : pyFindCh msgText.toList ' ' > 0)
    (h12 : String.mk (msgText.toList.drop ((pyFindCh msgText.toList ' ').toNat + 1)) = "12")
    (hnone : pyListIndex (episode_numbers entries) (some "12a") = none) :
    topics_of_episode convert entries msgText = .error .valueError := by
  unfold topics_of_episode
  rw [if_pos hi, h12]
  unfold topics_with_arg
  rw [if_pos rfl, hnone]

/-- C10 witness: a feed whose only title extracts `"13"`, asked for episode
`"12"`, makes the handler raise (model: `ValueError`) instead of replying. -/
theorem C10_uncaught_witness :
    topics_of_episode (fun s => s) [⟨"Minkorrekt 13 C", "l", 0, "c"⟩]
      "/themenVonFolge 12" = .error .valueError :=
  C10_uncaught_thm (fun s => s) [⟨"Minkorrekt 13 C", "l", 0, "c"⟩]
    "/themenVonFolge 12" (by decide) (by decide) (by decide)

/-- C6 counterexample: `fuzzy_topic_search` invoked without an argument (no
space in the message) raises an uncaught name error — `search_term` is
never assigned — rather than replying with an instructive prompt. -/
theorem C6_counterexample :
    fuzzy_topic_search (fun _ _ => ([] : List ((String × String) × Nat))) []
      "/findeStichwort" = .error .nameError ∧
    (Except.error PyErr.nameError : Except PyErr String) ≠ .ok promptText :=
  ⟨rfl, by simp⟩

/-- C6 (amended): `topics_of_episode` replies with an instructive prompt on
an empty argument and with a user-facing "not found" message when a
requested number other than `"12"` is absent; `fuzzy_topic_search` with an
empty argument, however, raises an uncaught name error instead of
replying. -/
theorem C6_amended_thm :
    (∀ (convert : String → String) (entries : List Episode) (msgText : String),
        ¬ (pyFindCh msgText.toList ' ' > 0) →
          topics_of_episode convert entries msgText = .ok promptText) ∧
    (∀ (extract : String → List (String × String) → List ((String × String) × Nat))
        (entries : List Episode) (msgText : String),
        ¬ (pyFindCh msgText.toList ' ' > 0) →
          fuzzy_topic_search extract entries msgText = .error .nameError) ∧
    (∀ (convert : String → String) (entries : List Episode) (msgText : String)
        (n : String),
        pyFindCh msgText.toList ' ' > 0 →
        String.mk (msgText.toList.drop ((pyFindCh msgText.toList ' ').toNat + 1)) = n →
        n ≠ "12" →
        pyListIndex (episode_numbers entries) (some n) = none →
          topics_of_episode convert entries msgText = .ok (notFoundText n)) := by
  refine ⟨?_, ?_, ?_⟩
  · intro convert entries msgText h
    unfold topics_of_episode
    rw [if_neg h]
  · intro extract entries msgText h
    unfold fuzzy_topic_search
    rw [if_neg h]
  · intro convert entries msgText n hi hn h12 hnone
    unfold topics_of_episode
    rw [if_pos hi, hn]
    unfold topics_with_arg
    rw [if_neg h12, hnone]

/-- C6 amended witness: concrete instances of the three behaviours. -/
theorem C6_amended_witness :
    topics_of_episode (fun s => s) [] "/themenVonFolge" = .ok promptText ∧
    fuzzy_topic_search (fun _ _ => ([] : List ((String × String) × Nat))) []
      "/findeStichwort" = .error .nameError ∧
    topics_of_episode (fun s => s) [⟨"Minkorrekt 13 C", "l", 0, "c"⟩]
      "/themenVonFolge 7" = .ok (notFoundText "7") :=
  ⟨C6_amended_thm.1 (fun s => s) [] "/themenVonFolge" (by decide),
   C6_amended_thm.2.1 (fun _ _ => ([] : List ((String × String) × Nat))) []
     "/findeStichwort" (by decide),
   C6_amended_thm.2.2 (fun s => s) [⟨"Minkorrekt 13 C", "l", 0, "c"⟩]
     "/themenVonFolge 7" "7" (by decide) (by decide) (by decide) (by decide)⟩

/-- The feed of the C1 failing input: entries stored newest-first, with the
`"12a"` and `"12b"` episodes present as separate entries. -/
def c1entries : List Episode :=
  [⟨"Minkorrekt 13 C", "l13", 0, "Thema 1 x\ny"⟩,
   ⟨"Minkorrekt 12b B", "l12b", 0, "Thema 1 b\n"⟩,
   ⟨"Minkorrekt 12a A", "l12a", 0, "Thema 1 a\n"⟩,
   ⟨"Minkorrekt 11 Z", "l11", 0, "Thema 1 z\n"⟩]

/-- C1: on request `"12"` the code finds `"12a"` at index 2, but the slice
`topics_all_episodes[i : i + 1]` selects exactly one entry (the `"12a"`
one) rather than the pair, and the subsequent `" ".join` over a list whose
element is itself a list raises an uncaught `TypeError` — the handler
crashes and never produces the two-blob reply with the fixed combined
title. -/
theorem C1_crash_eval :
    topics_of_episode (fun s => s) c1entries "/themenVonFolge 12" =
      .error .typeError ∧
    pyListIndex (episode_numbers c1entries) (some "12a") = some 2 ∧
    ((pySliceNat (topics_all_episodes c1entries) 2 (2 + 1)).reverse).length = 1 :=
  ⟨rfl, by decide, by decide⟩

/-! ## Topic-marker characterization -/

/-- A class character of the topic-marker pattern is never `'T'`. -/
theorem themaClass_ne_T (c : Char) (h : themaClass c = true) : c ≠ 'T' := by
  intro hT
  subst hT
  exact absurd h (by decide)

/-- A list matched by the topic-marker pattern decomposes into the literal
`"Thema "`, a class character, and a tail. -/
theorem markerHere_eq (l : List Char) (h : markerHere l = true) :
    ∃ (c : Char) (t : List Char),
      l = 'T' :: 'h' :: 'e' :: 'm' :: 'a' :: ' ' :: c :: t ∧ themaClass c = true := by
  unfold markerHere at h
  rw [Bool.and_eq_true] at h
  obtain ⟨hpre, hcls⟩ := h
  have hp : "Thema ".toList <+: l := List.isPrefixOf_iff_prefix.mp hpre
  obtain ⟨t, ht⟩ := hp
  have hTL : "Thema ".toList = ['T', 'h', 'e', 'm', 'a', ' '] := rfl
  rw [hTL] at ht
  rcases t with _ | ⟨c, t2⟩
  · rw [← ht] at hcls
    simp at hcls
  · refine ⟨c, t2, by rw [← ht]; rfl, ?_⟩
    rw [← ht] at hcls
    simpa using hcls

/-- Two matches of the topic-marker pattern cannot overlap: a second match
inside the seven characters of a first one is impossible. -/
theorem marker_no_overlap (l : List Char) (k : Nat) (h : markerHere l = true)
    (h2 : markerHere (l.drop k) = true) : k = 0 ∨ 7 ≤ k := by
  obtain ⟨c, t, rfl, hcls⟩ := markerHere_eq l h
  by_contra hcon
  push_neg at hcon
  obtain ⟨hk0, hk7⟩ := hcon
  have hT : ('T' : Char) ≠ c := Ne.symm (themaClass_ne_T c hcls)
  have hTL : "Thema ".toList = ['T', 'h', 'e', 'm', 'a', ' '] := rfl
  interval_cases k
  · exact hk0 rfl
  · simp [markerHere, hTL, List.isPrefixOf] at h2
  · simp [markerHere, hTL, List.isPrefixOf] at h2
  · simp [markerHere, hTL, List.isPrefixOf] at h2
  · simp [markerHere, hTL, List.isPrefixOf] at h2
  · simp [markerHere, hTL, List.isPrefixOf] at h2
  · simp [markerHere, hTL, List.isPrefixOf, hT] at h2

/-- The finditer scan finds exactly the positions (at offset at least `skip`)
where the topic-marker pattern matches. -/
theorem findMarkersAux_mem (p : Nat) :
    ∀ (l : List Char) (skip pos : Nat),
      p ∈ findMarkersAux skip pos l ↔
        ∃ k, skip ≤ k ∧ p = pos + k ∧ markerHere (l.drop k) = true := by
  intro l
  induction l with
  | nil =>
    intro skip pos
    simp [findMarkersAux, show markerHere ([] : List Char) = false from rfl]
  | cons x rest ih =>
    intro skip pos
    match skip with
    | s + 1 =>
      rw [show findMarkersAux (s + 1) pos (x :: rest) =
            findMarkersAux s (pos + 1) rest from rfl]
      rw [ih s (pos + 1)]
      constructor
      · rintro ⟨k, hk, hp, hm⟩
        exact ⟨k + 1, by omega, by omega, by simpa using hm⟩
      · rintro ⟨k, hk, hp, hm⟩
        cases k with
        | zero => exact absurd hk (by omega)
        | succ kk => exact ⟨kk, by omega, by omega, by simpa using hm⟩
    | 0 =>
      by_cases hm : markerHere (x :: rest) = true
      · rw [show findMarkersAux 0 pos (x :: rest) =
              pos :: findMarkersAux 6 (pos + 1) rest from by
            simp [findMarkersAux, hm]]
        rw [List.mem_cons, ih 6 (pos + 1)]
        constructor
        · rintro (rfl | ⟨k, hk, hp, hmm⟩)
          · exact ⟨0, by omega, by omega, by simpa using hm⟩
          · exact ⟨k + 1, by omega, by omega, by simpa using hmm⟩
        · rintro ⟨k, hk, hp, hmm⟩
          cases k with
          | zero =>
            left
            omega
          | succ kk =>
            have hmm2 : markerHere (rest.drop kk) = true := by simpa using hmm
            have hov := marker_no_overlap (x :: rest) (kk + 1) hm (by simpa using hmm)
            have h7 : 7 ≤ kk + 1 := by
              rcases hov with h | h
              · omega
              · exact h
            right
            exact ⟨kk, by omega, by omega, hmm2⟩
      · rw [show findMarkersAux 0 pos (x :: rest) =
              findMarkersAux 0 (pos + 1) rest from by
            simp [findMarkersAux, hm]]
        rw [ih 0 (pos + 1)]
        constructor
        · rintro ⟨k, hk, hp, hmm⟩
          exact ⟨k + 1, by omega, by omega, by simpa using hmm⟩
        · rintro ⟨k, hk, hp, hmm⟩
          cases k with
          | zero => exact absurd (by simpa using hmm) hm
          | succ kk => exact ⟨kk, by omega, by omega, by simpa using hmm⟩

/-- `topic_start_points` contains exactly the positions where the
topic-marker pattern matches. -/
theorem findMarkers_mem (s : List Char) (p : Nat) :
    p ∈ findMarkers s ↔ markerHere (s.drop p) = true := by
  unfold findMarkers
  rw [findMarkersAux_mem]
  constructor
  · rintro ⟨k, _, hp, hm⟩
    have hpk : p = k := by omega
    subst hpk
    exact hm
  · intro hm
    exact ⟨p, by omega, by omega, hm⟩

/-! ## str.find and slicing semantics -/

/-- When `str.find` returns an index, that index holds the character and no
earlier index does: it is the next occurrence. -/
theorem pyFindIdx_some_spec (c : Char) :
    ∀ (l : List Char) (n : Nat), pyFindIdx c l = some n →
      l[n]? = some c ∧ ∀ m, m < n → l[m]? ≠ some c := by
  intro l
  induction l with
  | nil => intro n h; simp [pyFindIdx] at h
  | cons x xs ih =>
    intro n h
    rw [pyFindIdx] at h
    by_cases hx : x = c
    · rw [if_pos hx] at h
      injection h with h
      subst h
      subst hx
      refine ⟨by simp, ?_⟩
      intro m hm
      exact absurd hm (Nat.not_lt_zero m)
    · rw [if_neg hx] at h
      rcases hmap : pyFindIdx c xs with _ | k
      · rw [hmap] at h
        simp at h
      · rw [hmap] at h
        simp only [Option.map_some'] at h
        injection h with h
        subst h
        obtain ⟨h1, h2⟩ := ih k hmap
        refine ⟨by simpa using h1, ?_⟩
        intro m hm
        cases m with
        | zero => simpa using hx
        | succ mm =>
          have := h2 mm (by omega)
          simpa using this

/-- When `str.find` returns `-1` (here: `none`), the character occurs
nowhere. -/
theorem pyFindIdx_none_spec (c : Char) :
    ∀ l : List Char, pyFindIdx c l = none → ∀ m : Nat, l[m]? ≠ some c := by
  intro l
  induction l with
  | nil => intro _ m; simp
  | cons x xs ih =>
    intro h m
    rw [pyFindIdx] at h
    by_cases hx : x = c
    · rw [if_pos hx] at h
      simp at h
    · rw [if_neg hx] at h
      rcases hmap : pyFindIdx c xs with _ | k
      · cases m with
        | zero => simpa using hx
        | succ mm => simpa using ih hmap mm
      · rw [hmap] at h
        simp at h

/-- Slicing with a nonnegative end `start + q` takes `q` characters from
`start`. -/
theorem pySliceCh_nonneg (bl : List Char) (st q : Nat) :
    pySliceCh bl st ((st : Int) + (q : Int)) = (bl.drop st).take q := by
  unfold pySliceCh
  rw [if_neg (by omega)]
  have ht : ((st : Int) + (q : Int)).toNat = st + q := by omega
  rw [ht, List.drop_take, Nat.add_sub_cancel_left]

/-- Slicing `blob[start : start - 1]` with `start > 0` is empty: this is the
slice the code produces when no line break follows a marker. -/
theorem pySliceCh_pred (bl : List Char) (st : Nat) (h : 0 < st) :
    pySliceCh bl st ((st : Int) + (-1)) = [] := by
  unfold pySliceCh
  rw [if_neg (by omega)]
  apply List.drop_eq_nil_of_le
  have ht : ((st : Int) + (-1)).toNat = st - 1 := by omega
  rw [ht, List.length_take]
  omega

/-- A topic slice whose marker is followed by a line break runs from the
marker's start up to that line break. -/
theorem topicSlice_found (bl : List Char) (st q : Nat)
    (h : pyFindIdx '\n' (bl.drop st) = some q) :
    topicSlice bl st = (bl.drop st).take q := by
  unfold topicSlice pyFindCh
  rw [h]
  exact pySliceCh_nonneg bl st q

/-- A topic slice whose marker (at a positive position) has no following line
break is empty: `find` returns `-1` and the end index becomes `start - 1`. -/
theorem topicSlice_notfound (bl : List Char) (st : Nat) (hst : 0 < st)
    (h : pyFindIdx '\n' (bl.drop st) = none) :
    topicSlice bl st = [] := by
  unfold topicSlice pyFindCh
  rw [h]
  exact pySliceCh_pred bl st hst

/-- The zip of start points with their end points, mapped through the slice,
is the map of the per-start topic slice. -/
theorem zip_map_slice (bl : List Char) (convert : String → String) :
    ∀ starts : List Nat,
      ((starts.zip (starts.map
          (fun (st : Nat) => (st : Int) + pyFindCh (bl.drop st) '\n'))).map
        (fun se => convert (String.mk (pySliceCh bl se.1 se.2)))) =
      starts.map (fun st => convert (String.mk (topicSlice bl st))) := by
  intro starts
  induction starts with
  | nil => rfl
  | cons a rest ih =>
    simp only [List.map_cons, List.zip_cons_cons]
    rw [ih]
    rfl

/-! ## Handler reductions and claim C2 -/

/-- A message containing a space delegates to the per-argument body with the
text after the first space. -/
theorem topics_of_episode_space (convert : String → String) (entries : List Episode)
    (msgText : String) (n : String)
    (hi : pyFindCh msgText.toList ' ' > 0)
    (hn : String.mk (msgText.toList.drop ((pyFindCh msgText.toList ' ').toNat + 1)) = n) :
    topics_of_episode convert entries msgText = topics_with_arg convert entries n := by
  unfold topics_of_episode
  rw [if_pos hi, hn]

/-- A requested number other than `"12"` that is found at `idx` selects that
entry's `[title, content]` pair for the common tail. -/
theorem topics_with_arg_found (convert : String → String) (entries : List Episode)
    (n : String) (idx : Nat)
    (h12 : n ≠ "12")
    (hidx : pyListIndex (episode_numbers entries) (some n) = some idx) :
    topics_with_arg convert entries n =
      match (topics_all_episodes entries).get? idx with
      | none => .error .indexError
      | some pr =>
        topicsReplyCore convert n (topics_all_episodes entries) idx
          [.pstr pr.1, .pstr pr.2] := by
  unfold topics_with_arg
  rw [if_neg h12, hidx]

/-- Unfolding of the common tail on a two-string topics value: the joined
blob is `a ++ " " ++ b` and the result is decided by the marker scan. -/
theorem topicsReplyCore_strings (convert : String → String) (n : String)
    (topics_all : List (String × String)) (idx : Nat) (a b : String) :
    topicsReplyCore convert n topics_all idx [.pstr a, .pstr b] =
      (if (findMarkers (a ++ " " ++ b).toList).length = 0 then .ok noTopicsText
       else
         match (if n = "12" then some combined12Title
                else (topics_all.get? idx).map (fun pr => pr.1)) with
         | none => .error .indexError
         | some episode_title =>
           .ok (themesText episode_title (joinSep "\n"
             (((findMarkers (a ++ " " ++ b).toList).zip
                ((findMarkers (a ++ " " ++ b).toList).map
                  (fun (st : Nat) => (st : Int) +
                    pyFindCh ((a ++ " " ++ b).toList.drop st) '\n'))).map
               (fun se => convert (String.mk
                 (pySliceCh (a ++ " " ++ b).toList se.1 se.2))))))) := by
  rfl

/-- C2 (amended): for a selected episode (requested number found, not the
`"12"` special case), the blob is the title and cleaned content joined by
one space; the scan finds exactly the positions of `"Thema "` followed by
one character of the class `[1, 2, 3, 4]` — a digit 1-4, a comma, or a
space; a marker followed by a line break contributes the text from the
marker to that line break; a marker (at positive position) with no
following line break contributes the empty string — `find` returns `-1`
and the end index becomes `start - 1` — not the text to the end of the
blob; with zero markers the handler replies the no-topics message,
otherwise it replies the title with the converted topic slices joined by
line breaks. -/
theorem C2_amended_thm (convert : String → String) (entries : List Episode)
    (msgText : String) (n : String) (idx : Nat) (pr : String × String)
    (bl : List Char)
    (hi : pyFindCh msgText.toList ' ' > 0)
    (hn : String.mk (msgText.toList.drop ((pyFindCh msgText.toList ' ').toNat + 1)) = n)
    (h12 : n ≠ "12")
    (hidx : pyListIndex (episode_numbers entries) (some n) = some idx)
    (hpr : (topics_all_episodes entries).get? idx = some pr)
    (hbl : bl = (pr.1 ++ " " ++ pr.2).toList) :
    (∀ p : Nat, p ∈ findMarkers bl ↔ markerHere (bl.drop p) = true) ∧
    (findMarkers bl = [] →
      topics_of_episode convert entries msgText = .ok noTopicsText) ∧
    (findMarkers bl ≠ [] →
      topics_of_episode convert entries msgText =
        .ok (themesText pr.1 (joinSep "\n" ((findMarkers bl).map
          (fun st => convert (String.mk (topicSlice bl st))))))) ∧
    (∀ st q : Nat, pyFindIdx '\n' (bl.drop st) = some q →
      topicSlice bl st = (bl.drop st).take q ∧
      (bl.drop st)[q]? = some '\n' ∧ ∀ m, m < q → (bl.drop st)[m]? ≠ some '\n') ∧
    (∀ st : Nat, 0 < st → pyFindIdx '\n' (bl.drop st) = none →
      topicSlice bl st = []) := by
  subst hbl
  have hred : topics_of_episode convert entries msgText =
      topicsReplyCore convert n (topics_all_episodes entries) idx
        [.pstr pr.1, .pstr pr.2] := by
    rw [topics_of_episode_space convert entries msgText n hi hn,
        topics_with_arg_found convert entries n idx h12 hidx, hpr]
  refine ⟨fun p => findMarkers_mem _ p, ?_, ?_, ?_, ?_⟩
  · intro hempty
    rw [hred, topicsReplyCore_strings, if_pos (by rw [hempty]; rfl)]
  · intro hne
    rw [hred, topicsReplyCore_strings,
        if_neg (fun hlen => hne (List.length_eq_zero.mp hlen)),
        if_neg h12, hpr, Option.map_some']
    trans (Except.ok (themesText pr.1 (joinSep "\n"
      (((findMarkers (pr.1 ++ " " ++ pr.2).toList).zip
         ((findMarkers (pr.1 ++ " " ++ pr.2).toList).map
           (fun (st : Nat) => (st : Int) +
             pyFindCh ((pr.1 ++ " " ++ pr.2).toList.drop st) '\n'))).map
        (fun se => convert (String.mk
          (pySliceCh (pr.1 ++ " " ++ pr.2).toList se.1 se.2)))))) : Except PyErr String)
    · rfl
    · rw [zip_map_slice]
  · intro st q hq
    obtain ⟨h1, h2⟩ := pyFindIdx_some_spec '\n' _ q hq
    exact ⟨topicSlice_found _ st q hq, h1, h2⟩
  · intro st hst hnone
    exact topicSlice_notfound _ st hst hnone

/-- C2 amended witness: an episode whose content carries `"Thema 1"` and
`"Thema 2"` headings, each ended by a line break, is answered with exactly
those two topic lines. -/
theorem C2_amended_witness :
    topics_of_episode (fun s => s)
        [⟨"Minkorrekt 10 W", "l", 0, "Thema 1 a\nThema 2 b\nx"⟩]
        "/themenVonFolge 10" =
      .ok "Die Themen von Folge Minkorrekt 10 W sind:\nThema 1 a\nThema 2 b" :=
  Eq.trans
    ((C2_amended_thm (fun s => s)
        [⟨"Minkorrekt 10 W", "l", 0, "Thema 1 a\nThema 2 b\nx"⟩]
        "/themenVonFolge 10" "10" 0
        ("Minkorrekt 10 W", "Thema 1 a\nThema 2 b\nx") _
        (by decide) (by decide) (by decide) (by decide) (by decide) rfl).2.2.1
      (by decide))
    rfl

/-- C2 counterexample: first, a content whose only marker-like text is
`"Thema ,"` — no `"Thema "` followed by a digit 1-4 occurs, so by the claim
the handler should reply the no-topics message, yet it replies a topic list
(the class `[1, 2, 3, 4]` also matches the comma).  Second, a content whose
single marker `"Thema 1 alpha"` has no following line break: by the claim
the topic runs to the end of the blob, yet the handler replies with an
empty topic (`find` returned `-1`, making the slice `[start : start - 1]`). -/
theorem C2_counterexample :
    topics_of_episode (fun s => s)
        [⟨"Minkorrekt 9 T", "l", 0, "Thema , kein Thema\nRest"⟩]
        "/themenVonFolge 9" =
      .ok (themesText "Minkorrekt 9 T" "Thema , kein Thema") ∧
    themesText "Minkorrekt 9 T" "Thema , kein Thema" ≠ noTopicsText ∧
    topics_of_episode (fun s => s)
        [⟨"Minkorrekt 8 T", "l", 0, "Thema 1 alpha"⟩]
        "/themenVonFolge 8" =
      .ok (themesText "Minkorrekt 8 T" "") ∧
    themesText "Minkorrekt 8 T" "" ≠ themesText "Minkorrekt 8 T" "Thema 1 alpha" :=
  ⟨rfl, by decide, rfl, by decide⟩
